import Mathlib

/-!
Shallow embedding of the chat component of `nariman589/frontend-hiring-test`
(`src/chat.tsx` and the unnamed variant `part_000` with its GraphQL
requests in `part_001`).

The component keeps a `GetMessages` query result in the Apollo cache:
a list of edges (`{ node, cursor }`) plus `pageInfo`.  The handlers we
embed are the cache-reconciliation functions:
  * the `SEND_MESSAGE` optimistic response and its `update` callback,
  * the `MESSAGE_ADDED` subscription `onData` callback (both variants),
  * the `MESSAGE_UPDATED` subscription `onData` callback (`cache.modify`
    on the normalized `Message:<id>` entry),
  * the `fetchMore` `updateQuery` merge and the `handleLoadMore` guard,
  * the `handleSendMessage` input guard,
  * the projection of edges to the list handed to the virtualized list.

Nondeterministic inputs of the source (`Date.now()`, `new
Date().toISOString()`) are passed as explicit parameters.  `readQuery`
returning `null` is modelled with `Option`: a handler that returns
without calling `writeQuery` leaves the cache state unchanged.
-/

/-- JS `String.prototype.startsWith`: the receiver begins with the given
prefix.  (Embedded on the character list so concrete instances reduce in
the kernel.) -/
def strStartsWith (s pre : String) : Bool := pre.data.isPrefixOf s.data

/-- JS whitespace for `String.prototype.trim` (the characters relevant to
keyboard input: space, tab, line feed, carriage return). -/
def isJsWs (c : Char) : Bool := c = ' ' || c = '\t' || c = '\n' || c = '\r'

/-- JS `String.prototype.trim`: strip whitespace from both ends. -/
def jsTrim (s : String) : String :=
  ⟨((s.data.dropWhile isJsWs).reverse.dropWhile isJsWs).reverse⟩

/-- `MessageSender` enum from the generated resolver types; the component
only names `Admin`. -/
inductive MessageSender where
  | Admin
  | Customer
deriving DecidableEq, Repr

/-- `MessageStatus` enum from the generated resolver types. -/
inductive MessageStatus where
  | Sending
  | Sent
  | Read
deriving DecidableEq, Repr

/-- The `Message` selection set used by every operation in the component:
`id`, `text`, `status`, `updatedAt`, `sender`. -/
structure Message where
  id : String
  text : String
  status : MessageStatus
  updatedAt : String
  sender : MessageSender
deriving DecidableEq, Repr

/-- An edge of the `GetMessages` connection: `{ node, cursor }`. -/
structure Edge where
  node : Message
  cursor : String
deriving DecidableEq, Repr

/-- `pageInfo` of the `GetMessages` connection; `endCursor` is
`string | null` in the component's `PageInfo` interface. -/
structure PageInfo where
  endCursor : Option String
  hasNextPage : Bool
deriving DecidableEq, Repr

/-- The cached `GetMessages` result (`MessagesData.messages`). -/
structure Messages where
  edges : List Edge
  pageInfo : PageInfo
deriving DecidableEq, Repr

/-! ## `chat.tsx`: optimistic send -/

/-- The `optimisticResponse` of `useMutation(SEND_MESSAGE)`:
`{ id: temp-Date.now(), text, status: Sending, updatedAt: new
Date().toISOString(), sender: Admin }`.  `now` stands for `Date.now()`
and `nowIso` for `new Date().toISOString()`. -/
def optimisticResponse (now : Nat) (nowIso : String) (text : String) : Message :=
  { id := "temp-" ++ toString now
    text := text
    status := MessageStatus.Sending
    updatedAt := nowIso
    sender := MessageSender.Admin }

/-- The `update` callback of `useMutation(SEND_MESSAGE)`: read the cached
`GetMessages`; if absent, return; if some edge already has the new
message's id, do not write; otherwise append one edge
`{ node: newMessage, cursor: newMessage.id }`. -/
def sendMessageUpdate (existing : Option Messages) (newMessage : Message) :
    Option Messages :=
  match existing with
  | none => none
  | some d =>
    if d.edges.any (fun e => decide (e.node.id = newMessage.id)) then
      some d
    else
      some { d with edges := d.edges ++ [{ node := newMessage, cursor := newMessage.id }] }

/-! ## `chat.tsx`: `MESSAGE_ADDED` subscription -/

/-- The `exists` test of the `MESSAGE_ADDED` handler in `chat.tsx`:
some edge has the delivered id, or is an optimistic placeholder
(`temp-` id) with the same text and sender. -/
def existsCheck (edges : List Edge) (newMessage : Message) : Bool :=
  edges.any fun e =>
    decide (e.node.id = newMessage.id) ||
      (decide (e.node.text = newMessage.text) &&
        decide (e.node.sender = newMessage.sender) &&
        strStartsWith e.node.id "temp-")

/-- The filter predicate used inside the `writeQuery` branch of the
`MESSAGE_ADDED` handler in `chat.tsx`: keep an edge unless it is a
`temp-` placeholder with the delivered text and sender. -/
def keepEdge (e : Edge) (newMessage : Message) : Bool :=
  !(strStartsWith e.node.id "temp-") ||
    decide (e.node.text ≠ newMessage.text) ||
    decide (e.node.sender ≠ newMessage.sender)

/-- The `onData` callback of `useSubscription(MESSAGE_ADDED)` in
`chat.tsx`: read the cached `GetMessages`; return if absent; return
without writing when `existsCheck` holds; otherwise write back the
filtered edges followed by one edge for the delivered message. -/
def messageAddedOnData (existing : Option Messages) (newMessage : Message) :
    Option Messages :=
  match existing with
  | none => none
  | some d =>
    if existsCheck d.edges newMessage then
      some d
    else
      some { d with
        edges := d.edges.filter (fun e => keepEdge e newMessage) ++
          [{ node := newMessage, cursor := newMessage.id }] }

/-! ## `chat.tsx`: `MESSAGE_UPDATED` subscription -/

/-- The `onData` callback of `useSubscription(MESSAGE_UPDATED)`:
`cache.modify` on the normalized entry `Message:<id>`, replacing only
the `status` and `updatedAt` fields.  The normalized store is modelled
as the list of its `Message` entries; `cache.modify` touches exactly
the entries whose identity key matches. -/
def messageUpdatedOnData (store : List Message) (updatedMessage : Message) :
    List Message :=
  store.map fun m =>
    if m.id = updatedMessage.id then
      { m with status := updatedMessage.status, updatedAt := updatedMessage.updatedAt }
    else m

/-! ## `chat.tsx`: load more and send handlers, projection -/

/-- The variables `handleLoadMore` passes to `fetchMore`. -/
structure FetchMoreVars where
  after : Option String
  first : Nat
deriving DecidableEq, Repr

/-- `handleLoadMore`: issue a `fetchMore` request only when query data is
present and `pageInfo.hasNextPage`; the variables are `after =
pageInfo.endCursor`, `first = 20`. -/
def handleLoadMore (data : Option Messages) : Option FetchMoreVars :=
  match data with
  | none => none
  | some d =>
    if d.pageInfo.hasNextPage then
      some { after := d.pageInfo.endCursor, first := 20 }
    else none

/-- The `updateQuery` merge passed to `fetchMore`: keep `prev` when
`fetchMoreResult` is absent, otherwise spread `fetchMoreResult.messages`
(so `pageInfo` comes from it) with edges `prev ++ fetchMoreResult`. -/
def updateQueryMerge (prev : Messages) (fetchMoreResult : Option Messages) :
    Messages :=
  match fetchMoreResult with
  | none => prev
  | some fr => { fr with edges := prev.edges ++ fr.edges }

/-- `handleSendMessage`: when the trimmed input is empty (JS falsy
string) return at once, issuing no mutation and leaving the input and
the cache alone; otherwise clear the input and send the mutation, whose
optimistic path runs `sendMessageUpdate` with the optimistic response.
Returns the new input text, the new cache state, and the text of the
issued mutation, if any. -/
def handleSendMessage (inputText : String) (cache : Option Messages)
    (now : Nat) (nowIso : String) : String × Option Messages × Option String :=
  if jsTrim inputText = "" then
    (inputText, cache, none)
  else
    ("", sendMessageUpdate cache (optimisticResponse now nowIso inputText),
      some inputText)

/-- The `data` prop of the virtualized list:
`data?.messages.edges.map(edge => edge.node) || []`.  An array is truthy
in JS even when empty, so the fallback only fires when `data` is
`undefined`. -/
def messagesProjection (data : Option Messages) : List Message :=
  match data with
  | none => []
  | some d => d.edges.map fun e => e.node

/-! ## `part_000` variant: `MESSAGE_ADDED` subscription -/

/-- In JavaScript, `s > undefined` coerces `undefined` to `NaN` and every
relational comparison with `NaN` is `false`.  The `part_000` handler
compares `existingMessage.node.updatedAt > data.data.updatedAt`, and
`data.data` (the subscription payload `\x7b messageAdded \x7d`) has no
`updatedAt` field, so the right-hand side is `undefined`. -/
def jsGtUndefined (_s : String) : Bool := false

/-- The `onData` callback of `useSubscription(MESSAGE_ADDED)` in
`part_000`: read the cached `GetMessages`; return if absent; find an
edge with the delivered id and return when its `updatedAt` compares
greater than `data.data.updatedAt` (which is `undefined`, see
`jsGtUndefined`); otherwise write back the edges with any edge of that
id removed, followed by one edge for the delivered message. -/
def messageAddedOnDataP0 (existing : Option Messages) (messageAdded : Message) :
    Option Messages :=
  match existing with
  | none => none
  | some d =>
    let stale :=
      match d.edges.find? (fun e => decide (e.node.id = messageAdded.id)) with
      | some existingMessage => jsGtUndefined existingMessage.node.updatedAt
      | none => false
    if stale then
      some d
    else
      some { d with
        edges := d.edges.filter (fun e => decide (e.node.id ≠ messageAdded.id)) ++
          [{ node := messageAdded, cursor := messageAdded.id }] }

/-- The spec's "matching optimistic placeholder": an edge whose node id
starts with `temp-` and whose text and sender equal the delivered
message's.  This is the spec-side characterization used to compare the
source's filter predicate against the claims. -/
def matchingTemp (e : Edge) (m : Message) : Bool :=
  strStartsWith e.node.id "temp-" &&
    decide (e.node.text = m.text) && decide (e.node.sender = m.sender)

/-! ## Helper lemmas -/

theorem keepEdge_eq_not_matchingTemp (e : Edge) (m : Message) :
    keepEdge e m = !(matchingTemp e m) := by
  simp only [keepEdge, matchingTemp, Bool.not_and, decide_not]

theorem matchingTemp_comm (e : Edge) (m : Message) :
    (decide (e.node.text = m.text) && decide (e.node.sender = m.sender) &&
      strStartsWith e.node.id "temp-") = matchingTemp e m := by
  rw [matchingTemp]
  generalize strStartsWith e.node.id "temp-" = a
  generalize decide (e.node.text = m.text) = b
  generalize decide (e.node.sender = m.sender) = c
  cases a <;> cases b <;> cases c <;> rfl

theorem existsCheck_eq_false_iff (edges : List Edge) (m : Message) :
    existsCheck edges m = false ↔
      ∀ e ∈ edges, e.node.id ≠ m.id ∧ matchingTemp e m = false := by
  unfold existsCheck
  rw [List.any_eq_false]
  refine forall_congr' fun e => imp_congr_right fun _ => ?_
  rw [matchingTemp_comm, Bool.not_eq_true, Bool.or_eq_false_iff, decide_eq_false_iff_not]

/-! ## Claim theorems -/

/-- C5: the load-more merge keeps `prev` when `fetchMoreResult` is
absent, and otherwise returns `prev.edges ++ fetchMoreResult.edges`
with `pageInfo` taken from `fetchMoreResult`. -/
theorem c5_load_more_merge (prev fr : Messages) :
    updateQueryMerge prev none = prev ∧
      updateQueryMerge prev (some fr) =
        { edges := prev.edges ++ fr.edges, pageInfo := fr.pageInfo } :=
  ⟨rfl, rfl⟩

/-- C6: whenever `handleLoadMore` issues a `fetchMore` request, the query
data was present with `pageInfo.hasNextPage = true`, and the request
variables are `after = endCursor` and `first = 20`; contrapositively it
never issues one on absent data or exhausted pages. -/
theorem c6_load_more_guard (data : Option Messages) (v : FetchMoreVars)
    (h : handleLoadMore data = some v) :
    ∃ d, data = some d ∧ d.pageInfo.hasNextPage = true ∧
      v.after = d.pageInfo.endCursor ∧ v.first = 20 := by
  match data with
  | none => simp [handleLoadMore] at h
  | some d =>
    refine ⟨d, rfl, ?_⟩
    simp only [handleLoadMore] at h
    by_cases hn : d.pageInfo.hasNextPage
    · rw [if_pos hn] at h
      cases h
      exact ⟨hn, rfl, rfl⟩
    · rw [if_neg hn] at h
      cases h

/-- C6 witness: a concrete cache state with a next page yields exactly
the expected request variables. -/
theorem c6_witness :
    ∃ d, (some { edges := [], pageInfo := { endCursor := some "c7", hasNextPage := true } } :
        Option Messages) = some d ∧
      d.pageInfo.hasNextPage = true ∧
      (({ after := some "c7", first := 20 } : FetchMoreVars)).after = d.pageInfo.endCursor ∧
      (({ after := some "c7", first := 20 } : FetchMoreVars)).first = 20 :=
  c6_load_more_guard
    (some { edges := [], pageInfo := { endCursor := some "c7", hasNextPage := true } })
    { after := some "c7", first := 20 } rfl

/-- C7: the list handed to the virtualized list is the projection of the
cached edges to their nodes, in edge order, and is empty on absent
data. -/
theorem c7_projection :
    messagesProjection none = [] ∧
      ∀ d : Messages,
        List.Forall₂ (fun (e : Edge) (m : Message) => m = e.node)
          d.edges (messagesProjection (some d)) := by
  refine ⟨rfl, fun d => ?_⟩
  simp only [messagesProjection]
  induction d.edges with
  | nil => exact List.Forall₂.nil
  | cons e es ih => exact List.Forall₂.cons rfl ih

/-- C9: when the trimmed input is empty, `handleSendMessage` issues no
mutation and leaves the input text and the cache unchanged. -/
theorem c9_blank_input (inputText : String) (cache : Option Messages)
    (now : Nat) (nowIso : String) (h : jsTrim inputText = "") :
    handleSendMessage inputText cache now nowIso = (inputText, cache, none) := by
  simp only [handleSendMessage, if_pos h]

/-- C9 witness: a whitespace-only input is left untouched and sends
nothing. -/
theorem c9_witness :
    handleSendMessage "  " (some { edges := [], pageInfo := { endCursor := none, hasNextPage := false } }) 5 "iso" =
      ("  ", some { edges := [], pageInfo := { endCursor := none, hasNextPage := false } }, none) :=
  c9_blank_input "  " _ 5 "iso" (by decide)

/-- C2: when the delivered message is not already present (neither by id
nor as a matching optimistic placeholder), the `MESSAGE_ADDED` handler
writes back the previous edges with matching `temp-` placeholders
removed, followed by exactly one edge whose node is the delivered
message and whose cursor is its id; `pageInfo` is unchanged. -/
theorem c2_subscription_append (d : Messages) (m : Message)
    (h : existsCheck d.edges m = false) :
    messageAddedOnData (some d) m =
      some ⟨d.edges.filter (fun e => !(matchingTemp e m)) ++
        [{ node := m, cursor := m.id }], d.pageInfo⟩ := by
  have hfilter : d.edges.filter (fun e => keepEdge e m) =
      d.edges.filter (fun e => !(matchingTemp e m)) :=
    List.filter_congr fun e _ => keepEdge_eq_not_matchingTemp e m
  cases d with
  | mk edges pageInfo =>
    simp only [messageAddedOnData, h, Bool.false_eq_true, if_false]
    rw [hfilter]

/-- C2 witness: a concrete cache without the delivered message gets
exactly one appended edge. -/
theorem c2_witness :
    messageAddedOnData
        (some ⟨[⟨⟨"a", "x", MessageStatus.Read, "t0", MessageSender.Customer⟩, "a"⟩],
          ⟨some "a", true⟩⟩)
        ⟨"m1", "y", MessageStatus.Sent, "t1", MessageSender.Admin⟩ =
      some ⟨([⟨⟨"a", "x", MessageStatus.Read, "t0", MessageSender.Customer⟩, "a"⟩] :
            List Edge).filter
          (fun e => !(matchingTemp e
            ⟨"m1", "y", MessageStatus.Sent, "t1", MessageSender.Admin⟩)) ++
        [⟨⟨"m1", "y", MessageStatus.Sent, "t1", MessageSender.Admin⟩, "m1"⟩],
        ⟨some "a", true⟩⟩ :=
  c2_subscription_append _ _ (by decide)

/-- C3: the optimistic response carries the typed text, status `Sending`,
sender `Admin`, and a `temp-`-prefixed id; when no cached edge has that
id, the mutation's cache update appends exactly one edge for it and
leaves the existing edges and `pageInfo` unchanged. -/
theorem c3_optimistic_send (now : Nat) (nowIso t : String) (d : Messages)
    (_ht : t ≠ "")
    (h : d.edges.any
        (fun e => decide (e.node.id = (optimisticResponse now nowIso t).id)) = false) :
    (optimisticResponse now nowIso t).text = t ∧
    (optimisticResponse now nowIso t).status = MessageStatus.Sending ∧
    (optimisticResponse now nowIso t).sender = MessageSender.Admin ∧
    strStartsWith (optimisticResponse now nowIso t).id "temp-" = true ∧
    sendMessageUpdate (some d) (optimisticResponse now nowIso t) =
      some ⟨d.edges ++ [⟨optimisticResponse now nowIso t,
        (optimisticResponse now nowIso t).id⟩], d.pageInfo⟩ := by
  refine ⟨rfl, rfl, rfl, ?_, ?_⟩
  · show strStartsWith ("temp-" ++ toString now) "temp-" = true
    rw [strStartsWith, String.data_append]
    exact List.isPrefixOf_iff_prefix.mpr (List.prefix_append _ _)
  · cases d with
    | mk edges pageInfo =>
      simp only [sendMessageUpdate] at *
      simp only [h, Bool.false_eq_true, if_false]

/-- C3 witness: sending "hello" at time 7 appends the optimistic message
to an empty thread. -/
theorem c3_witness :
    (optimisticResponse 7 "2024-01-01" "hello").text = "hello" ∧
    (optimisticResponse 7 "2024-01-01" "hello").status = MessageStatus.Sending ∧
    (optimisticResponse 7 "2024-01-01" "hello").sender = MessageSender.Admin ∧
    strStartsWith (optimisticResponse 7 "2024-01-01" "hello").id "temp-" = true ∧
    sendMessageUpdate
        (some ⟨[], ⟨none, false⟩⟩)
        (optimisticResponse 7 "2024-01-01" "hello") =
      some ⟨[] ++ [⟨optimisticResponse 7 "2024-01-01" "hello",
        (optimisticResponse 7 "2024-01-01" "hello").id⟩], ⟨none, false⟩⟩ :=
  c3_optimistic_send 7 "2024-01-01" "hello" ⟨[], ⟨none, false⟩⟩ (by decide) rfl

/-- C4: the `MESSAGE_UPDATED` handler relates the old and new normalized
stores pointwise: every entry keeps its id, text and sender; entries
with a different id are untouched; the entry with the event's id takes
the event's status and updatedAt. -/
theorem c4_status_update_frame (store : List Message) (u : Message) :
    List.Forall₂ (fun (mOld mNew : Message) =>
        mNew.id = mOld.id ∧ mNew.text = mOld.text ∧ mNew.sender = mOld.sender ∧
        (mOld.id ≠ u.id → mNew = mOld) ∧
        (mOld.id = u.id → mNew.status = u.status ∧ mNew.updatedAt = u.updatedAt))
      store (messageUpdatedOnData store u) := by
  rw [messageUpdatedOnData]
  induction store with
  | nil => exact List.Forall₂.nil
  | cons mh mt ih =>
    refine List.Forall₂.cons ?_ ih
    by_cases hid : mh.id = u.id
    · simp [hid]
    · simp [hid]

theorem messageAddedOnDataP0_some (d : Messages) (m : Message) :
    messageAddedOnDataP0 (some d) m =
      some ⟨d.edges.filter (fun e => decide (e.node.id ≠ m.id)) ++
        [{ node := m, cursor := m.id }], d.pageInfo⟩ := by
  rw [messageAddedOnDataP0]
  cases hf : d.edges.find? (fun e => decide (e.node.id = m.id)) <;>
    simp [hf, jsGtUndefined]

/-- C8: both variants of the `MESSAGE_ADDED` handler are idempotent:
running the handler a second time with the same event leaves the cached
`GetMessages` result it produced unchanged. -/
theorem c8_message_added_idempotent (existing : Option Messages) (m : Message) :
    messageAddedOnData (messageAddedOnData existing m) m =
        messageAddedOnData existing m ∧
      messageAddedOnDataP0 (messageAddedOnDataP0 existing m) m =
        messageAddedOnDataP0 existing m := by
  constructor
  · match existing with
    | none => rfl
    | some d =>
      by_cases h : existsCheck d.edges m = true
      · simp [messageAddedOnData, h]
      · rw [Bool.not_eq_true] at h
        have hsecond : existsCheck
            (d.edges.filter (fun e => keepEdge e m) ++
              [{ node := m, cursor := m.id }]) m = true := by
          simp [existsCheck, List.any_append]
        simp [messageAddedOnData, h, hsecond]
  · match existing with
    | none => rfl
    | some d =>
      rw [messageAddedOnDataP0_some, messageAddedOnDataP0_some]
      simp [List.filter_append, List.filter_filter]

/-- C1 counterexample: a cached optimistic placeholder (`temp-1`) with
the delivered message's text and sender makes the `exists` check true,
so the handler returns without writing and the matching `temp-` edge
survives, contradicting the claimed deduplication. -/
theorem c1_counterexample :
    messageAddedOnData
        (some ⟨[⟨⟨"temp-1", "hi", MessageStatus.Sending, "t0", MessageSender.Admin⟩,
          "temp-1"⟩], ⟨none, false⟩⟩)
        ⟨"m1", "hi", MessageStatus.Sent, "t1", MessageSender.Admin⟩ =
      some ⟨[⟨⟨"temp-1", "hi", MessageStatus.Sending, "t0", MessageSender.Admin⟩,
        "temp-1"⟩], ⟨none, false⟩⟩ ∧
    matchingTemp
        ⟨⟨"temp-1", "hi", MessageStatus.Sending, "t0", MessageSender.Admin⟩, "temp-1"⟩
        ⟨"m1", "hi", MessageStatus.Sent, "t1", MessageSender.Admin⟩ = true := by
  constructor
  · decide
  · decide

/-- C1 amended: when the prior cached edges have pairwise-distinct
message ids, none of them is an optimistic placeholder matching the
delivered message, and the delivered message's id is not
`temp-`-prefixed, the `MESSAGE_ADDED` handler leaves the edge list with
at most one edge per message id and no `temp-` edge whose text and
sender equal the delivered message's. -/
theorem c1_amended_dedup (d : Messages) (m : Message) (r : Messages)
    (hdup : (d.edges.map fun e => e.node.id).Nodup)
    (htemp : ∀ e ∈ d.edges, matchingTemp e m = false)
    (hm : strStartsWith m.id "temp-" = false)
    (hr : messageAddedOnData (some d) m = some r) :
    (r.edges.map fun e => e.node.id).Nodup ∧
      ∀ e ∈ r.edges, matchingTemp e m = false := by
  rw [messageAddedOnData] at hr
  by_cases h : existsCheck d.edges m = true
  · rw [if_pos h] at hr
    cases hr
    exact ⟨hdup, htemp⟩
  · rw [Bool.not_eq_true] at h
    rw [if_neg (by simp [h])] at hr
    cases hr
    have hids := (existsCheck_eq_false_iff d.edges m).mp h
    constructor
    · simp only [List.map_append, List.map_cons, List.map_nil]
      rw [List.nodup_append]
      refine ⟨?_, List.nodup_singleton _, ?_⟩
      · exact hdup.sublist (List.Sublist.map _ (List.filter_sublist _))
      · intro a ha hb
        simp only [List.mem_singleton] at hb
        subst hb
        simp only [List.mem_map] at ha
        obtain ⟨e, he, heq⟩ := ha
        exact (hids e (List.mem_of_mem_filter he)).1 heq
    · intro e he
      rcases List.mem_append.mp he with he | he
      · exact htemp e (List.mem_of_mem_filter he)
      · simp only [List.mem_singleton] at he
        subst he
        rw [matchingTemp]
        simp [hm]

/-- C1 witness: adding a fresh message to a well-formed cache keeps ids
unique and introduces no matching placeholder. -/
theorem c1_witness :
    ((⟨[⟨⟨"a", "x", MessageStatus.Read, "t0", MessageSender.Customer⟩, "a"⟩,
        ⟨⟨"m1", "y", MessageStatus.Sent, "t1", MessageSender.Admin⟩, "m1"⟩],
      ⟨none, false⟩⟩ : Messages).edges.map fun e => e.node.id).Nodup ∧
    ∀ e ∈ (⟨[⟨⟨"a", "x", MessageStatus.Read, "t0", MessageSender.Customer⟩, "a"⟩,
        ⟨⟨"m1", "y", MessageStatus.Sent, "t1", MessageSender.Admin⟩, "m1"⟩],
      ⟨none, false⟩⟩ : Messages).edges,
      matchingTemp e ⟨"m1", "y", MessageStatus.Sent, "t1", MessageSender.Admin⟩ = false :=
  c1_amended_dedup
    ⟨[⟨⟨"a", "x", MessageStatus.Read, "t0", MessageSender.Customer⟩, "a"⟩], ⟨none, false⟩⟩
    ⟨"m1", "y", MessageStatus.Sent, "t1", MessageSender.Admin⟩
    ⟨[⟨⟨"a", "x", MessageStatus.Read, "t0", MessageSender.Customer⟩, "a"⟩,
      ⟨⟨"m1", "y", MessageStatus.Sent, "t1", MessageSender.Admin⟩, "m1"⟩], ⟨none, false⟩⟩
    (by decide) (by decide) (by decide) (by decide)

/-- C10: at a concrete input where the cached copy of the message has a
strictly greater `updatedAt` than the delivered event, the `part_000`
handler still overwrites the cached message with the stale one, because
its guard compares against `data.data.updatedAt`, which is `undefined`.
The claim (and the handler's own staleness comment) requires the event
to be discarded. -/
theorem c10_stale_event_overwrites :
    messageAddedOnDataP0
        (some ⟨[⟨⟨"m1", "old", MessageStatus.Read, "2024-01-02T00:00:00Z",
          MessageSender.Customer⟩, "m1"⟩], ⟨none, false⟩⟩)
        ⟨"m1", "old", MessageStatus.Sent, "2024-01-01T00:00:00Z",
          MessageSender.Customer⟩ =
      some ⟨[⟨⟨"m1", "old", MessageStatus.Sent, "2024-01-01T00:00:00Z",
        MessageSender.Customer⟩, "m1"⟩], ⟨none, false⟩⟩ ∧
    ("2024-01-01T00:00:00Z").data < ("2024-01-02T00:00:00Z").data := by
  constructor
  · decide
  · decide
